import Mathlib

/-! Verification of the optimistic-synchronization core of the Focus-Flow
repository: the generic retry executor (`src/lib/retry.ts`), the retryability
classifier, and the task-pool / time-block mutation coordinators and realtime
merge handlers (`src/hooks/useTaskPool.ts`, which contains two variants of the
hook, and the time-block hook).

The persistence layer is modelled as a parameter: each invocation of the
fallible operation is a function from the invocation number to an
`Except JsError` outcome, exactly the information the TypeScript code observes.
-/

namespace FocusFlow

/-- A JavaScript error value as inspected by `retry.ts`: an optional `code`
string, an optional `message` string, and an optional numeric HTTP `status`. -/
structure JsError where
  code : Option String
  message : Option String
  status : Option Int
deriving DecidableEq

/-- JS `String.prototype.includes`: substring containment, modelled via
`String.splitOn` (the pattern occurs iff splitting on it yields
more than one piece). -/
def jsIncludes (s pat : String) : Bool :=
  decide (1 < (s.splitOn pat).length)

/-- `error?.message?.includes(pat)` with optional chaining: an absent message
is falsy. -/
def msgIncludes (m : Option String) (pat : String) : Bool :=
  match m with
  | some s => jsIncludes s pat
  | none => false

/-- First test of `isRetryableError`:
`error?.code === 'NETWORK_ERROR' || error?.message?.includes('network')`. -/
def isNetworkError (e : JsError) : Bool :=
  e.code == some "NETWORK_ERROR" || msgIncludes e.message "network"

/-- Second test of `isRetryableError`:
`error?.code === 'TIMEOUT' || error?.message?.includes('timeout')`. -/
def isTimeoutError (e : JsError) : Bool :=
  e.code == some "TIMEOUT" || msgIncludes e.message "timeout"

/-- Third test of `isRetryableError`: `error?.status >= 500 && error?.status < 600`
(in JS a comparison against `undefined` is false, hence the `none` branch). -/
def hasStatus5xx (e : JsError) : Bool :=
  match e.status with
  | some s => decide (500 ≤ s ∧ s < 600)
  | none => false

/-- Fourth test of `isRetryableError`: `error?.status === 429`. -/
def hasStatus429 (e : JsError) : Bool :=
  e.status == some 429

/-- `isRetryableError` from `src/lib/retry.ts`: the four tests in source order,
`false` otherwise. -/
def isRetryableError (e : JsError) : Bool :=
  if isNetworkError e then true
  else if isTimeoutError e then true
  else if hasStatus5xx e then true
  else if hasStatus429 e then true
  else false

/-- The `backoff` option of `RetryOptions` in `src/lib/retry.ts`. -/
inductive Backoff where
  | linear : Backoff
  | exponential : Backoff
deriving DecidableEq

/-- The delay computed inside `retry` after a failed attempt numbered
`attempt`: `opts.delay * Math.pow(2, attempt)` for exponential backoff,
`opts.delay * (attempt + 1)` for linear backoff. -/
def delayFor (backoff : Backoff) (delay attempt : Nat) : Nat :=
  match backoff with
  | .exponential => delay * 2 ^ attempt
  | .linear => delay * (attempt + 1)

/-- Observable outcome of one call to `retry`: the value returned or the error
thrown, the number of times `fn` was invoked, and the list of waits inserted
between attempts (`waits.get k` is the wait after failed attempt `k`, i.e.
before attempt `k + 1`). -/
structure RetryTrace (α : Type) where
  result : Except JsError α
  calls : Nat
  waits : List Nat

/-- The loop body of `retry`: `fn` is invoked at attempt number `attempt`; on
an error that fails `retryCondition`, or when `attempt` has reached
`maxRetries`, the last error is thrown; otherwise the computed delay is
awaited and the loop continues. `fuel` is the number of loop iterations still
available after this one (`retry` enters with `fuel = maxRetries`, so the
`fuel = 0` fallback is unreachable: it would require `attempt = maxRetries`,
which breaks first). -/
def retryLoop (fn : Nat → Except JsError α) (retryCondition : JsError → Bool)
    (delay : Nat) (backoff : Backoff) (maxRetries : Nat) :
    Nat → Nat → RetryTrace α
  | fuel, attempt =>
    match fn attempt with
    | .ok v => ⟨.ok v, 1, []⟩
    | .error e =>
      if retryCondition e = false then ⟨.error e, 1, []⟩
      else if attempt = maxRetries then ⟨.error e, 1, []⟩
      else
        match fuel with
        | 0 => ⟨.error e, 1, []⟩
        | f + 1 =>
          let rest := retryLoop fn retryCondition delay backoff maxRetries f (attempt + 1)
          ⟨rest.result, rest.calls + 1, delayFor backoff delay attempt :: rest.waits⟩

/-- `retry` from `src/lib/retry.ts`: run the loop from attempt `0`. The
defaults of `RetryOptions` are `maxRetries = 3`, `delay = 1000`, exponential
backoff and an always-true condition; every call site in the hooks passes its
own values, so they are taken as explicit arguments here. -/
def retry (fn : Nat → Except JsError α) (maxRetries delay : Nat)
    (backoff : Backoff) (retryCondition : JsError → Bool) : RetryTrace α :=
  retryLoop fn retryCondition delay backoff maxRetries maxRetries 0

/-- The `TaskPoolTask` domain entity (`src/types`): stable identifier, title,
category, completion flag, integer sort position, optional notes, and the
optional server timestamps (absent on optimistic entities). -/
structure TaskPoolTask where
  id : String
  title : String
  category : String
  completed : Bool
  position : Int
  notes : Option String
  createdAt : Option String
  updatedAt : Option String
deriving DecidableEq

/-- A persisted `task_pool` row as returned by the store (`Tables<'task_pool'>`). -/
structure TaskPoolRow where
  id : String
  title : String
  category : String
  completed : Bool
  position : Int
  notes : Option String
  created_at : Option String
  updated_at : Option String
deriving DecidableEq

/-- `mapRowToTask` from `useTaskPool.ts`: field-by-field row-to-entity mapping. -/
def mapRowToTask (row : TaskPoolRow) : TaskPoolTask :=
  { id := row.id
    title := row.title
    category := row.category
    completed := row.completed
    position := row.position
    notes := row.notes
    createdAt := row.created_at
    updatedAt := row.updated_at }

/-- A draft passed to `addTask`: `Omit<TaskPoolTask, 'id' | 'createdAt' | 'updatedAt'>`. -/
structure TaskDraft where
  title : String
  category : String
  completed : Bool
  position : Int
  notes : Option String
deriving DecidableEq

/-- The optimistic entity `{ ...task, id: tempId }` built inside `addTask`:
the draft's fields with the temporary identifier; the timestamps stay absent. -/
def draftToTask (task : TaskDraft) (tempId : String) : TaskPoolTask :=
  { id := tempId
    title := task.title
    category := task.category
    completed := task.completed
    position := task.position
    notes := task.notes
    createdAt := none
    updatedAt := none }

/-- A `Partial<TaskPoolTask>` patch as consumed by `updateTask` and
`mapUpdatesToDb`: each updatable field either present or absent. -/
structure TaskPatch where
  title : Option String
  category : Option String
  completed : Option Bool
  position : Option Int
  notes : Option (Option String)
deriving DecidableEq

/-- The optimistic merge `{ ...previous, ...updates }`: fields present in the
patch override, absent fields keep the previous value (the identifier and
timestamps are not part of the patch and are preserved). -/
def applyPatch (previous : TaskPoolTask) (updates : TaskPatch) : TaskPoolTask :=
  { previous with
    title := updates.title.getD previous.title
    category := updates.category.getD previous.category
    completed := updates.completed.getD previous.completed
    position := updates.position.getD previous.position
    notes := updates.notes.getD previous.notes }

/-- `prev.map(task => (task.id === id ? t : task))`: replace every entity whose
identifier matches with `t`. -/
def replaceById (l : List TaskPoolTask) (id : String) (t : TaskPoolTask) : List TaskPoolTask :=
  l.map (fun task => if task.id == id then t else task)

/-- The sort comparator of the first task-pool hook variant:
`(a, b) => a.position - b.position`, as the boolean relation
"the comparator is non-positive". -/
def leTask (a b : TaskPoolTask) : Bool :=
  decide (a.position ≤ b.position)

/-- LocalState sortedness for pool tasks: every pair of entities in list order
has non-decreasing positions. -/
def SortedByPosition (l : List TaskPoolTask) : Prop :=
  l.Pairwise (fun a b => a.position ≤ b.position)

instance (l : List TaskPoolTask) : Decidable (SortedByPosition l) :=
  inferInstanceAs
    (Decidable (l.Pairwise (fun a b : TaskPoolTask => a.position ≤ b.position)))

/-- LocalState uniqueness invariant: no duplicate identifiers. -/
def NodupKeys (l : List TaskPoolTask) : Prop :=
  (l.map (fun t => t.id)).Nodup

instance (l : List TaskPoolTask) : Decidable (NodupKeys l) :=
  inferInstanceAs (Decidable ((l.map (fun t : TaskPoolTask => t.id)).Nodup))

/-- Temporary (client-assigned) identifiers are the `temp-${Date.now()}`
strings produced by `addTask`: those whose first five characters are
`temp-`. -/
def isTempId (id : String) : Bool :=
  id.data.take 5 == "temp-".data

/-- INSERT branch of the realtime change handler of the first task-pool hook
variant: append the normalized row and re-sort by position. No existence
check is performed in this variant. -/
def taskInsertMergeV1 (current : List TaskPoolTask) (row : TaskPoolRow) : List TaskPoolTask :=
  List.mergeSort (current ++ [mapRowToTask row]) leTask

/-- UPDATE branch of the realtime change handler of the first task-pool hook
variant: replace the entity with matching identifier and re-sort by position. -/
def taskUpdateMergeV1 (current : List TaskPoolTask) (row : TaskPoolRow) : List TaskPoolTask :=
  List.mergeSort (replaceById current row.id (mapRowToTask row)) leTask

/-- The sort comparator of the second task-pool hook variant:
`(a, b) => a.position - b.position || a.createdAt!.localeCompare(b.createdAt!)`,
as the boolean relation "the comparator is non-positive": position first, then
the creation timestamp string. The non-null assertion on `createdAt` is
modelled by defaulting an absent timestamp to the empty string (rows delivered
by the change stream always carry `created_at`). -/
def leTaskV2 (a b : TaskPoolTask) : Bool :=
  decide (a.position < b.position
    ∨ (a.position = b.position ∧ a.createdAt.getD "" ≤ b.createdAt.getD ""))

/-- INSERT branch of the realtime change handler of the second task-pool hook
variant: normalize the payload row; if an entity with that identifier is
already present, ignore the event; otherwise append and re-sort by position
then creation timestamp. -/
def taskInsertMergeV2 (current : List TaskPoolTask) (row : TaskPoolRow) : List TaskPoolTask :=
  let inserted := mapRowToTask row
  if current.any (fun task => task.id == inserted.id) then current
  else List.mergeSort (current ++ [inserted]) leTaskV2

/-- DELETE branch of the realtime change handler (both task-pool variants):
remove the entity with the identifier of the deleted row. -/
def taskDeleteMerge (current : List TaskPoolTask) (oldId : String) : List TaskPoolTask :=
  current.filter (fun task => task.id != oldId)

/-- The optimistic append `syncState(prev => [...prev, optimisticTask])`
performed by `addTask` before the persistence call starts. -/
def addTaskOptimistic (s : List TaskPoolTask) (task : TaskDraft) (tempId : String) : List TaskPoolTask :=
  s ++ [draftToTask task tempId]

/-- `addTask` of the first task-pool hook variant, as a function of the
pre-state, the draft, the generated temporary identifier, and the behaviour of
the persistence insert on each invocation. The insert goes through `retry`
with `maxRetries = 2, delay = 500, retryCondition = isRetryableError`. On
success the temporary entity is replaced by the server row; on terminal
failure the temporary entity is removed and the error is rethrown. Returns the
final LocalState and the error propagated to the caller, if any. -/
def addTask (s : List TaskPoolTask) (task : TaskDraft) (tempId : String)
    (fn : Nat → Except JsError TaskPoolRow) : List TaskPoolTask × Option JsError :=
  let s1 := addTaskOptimistic s task tempId
  match (retry fn 2 500 .exponential isRetryableError).result with
  | .ok row => (replaceById s1 tempId (mapRowToTask row), none)
  | .error e => (s1.filter (fun item => item.id != tempId), some e)

/-- The optimistic phase of `updateTask`: look up the entity by identifier in
the latest snapshot; if absent do nothing, otherwise apply the patch in place
(no re-sort). -/
def updateOptimistic (s : List TaskPoolTask) (id : String) (updates : TaskPatch) : List TaskPoolTask :=
  match s.find? (fun task => task.id == id) with
  | none => s
  | some previous => replaceById s id (applyPatch previous updates)

/-- `updateTask` of the first task-pool hook variant: no-op if the identifier
is absent; otherwise optimistic patch, persistence update through `retry`
(`maxRetries = 2, delay = 400`), reconciliation with the server row on
success, restoration of the captured pre-patch entity and rethrow on terminal
failure. -/
def updateTask (s : List TaskPoolTask) (id : String) (updates : TaskPatch)
    (fn : Nat → Except JsError TaskPoolRow) : List TaskPoolTask × Option JsError :=
  match s.find? (fun task => task.id == id) with
  | none => (s, none)
  | some previous =>
    let s1 := replaceById s id (applyPatch previous updates)
    match (retry fn 2 400 .exponential isRetryableError).result with
    | .ok row => (replaceById s1 id (mapRowToTask row), none)
    | .error e => (replaceById s1 id previous, some e)

/-- `updateTask` of the second task-pool hook variant (`delay = 600`): same
state transitions, but the catch block only notifies — the error is not
rethrown to the caller. -/
def updateTaskV2 (s : List TaskPoolTask) (id : String) (updates : TaskPatch)
    (fn : Nat → Except JsError TaskPoolRow) : List TaskPoolTask × Option JsError :=
  match s.find? (fun task => task.id == id) with
  | none => (s, none)
  | some previous =>
    let s1 := replaceById s id (applyPatch previous updates)
    match (retry fn 2 600 .exponential isRetryableError).result with
    | .ok row => (replaceById s1 id (mapRowToTask row), none)
    | .error _ => (replaceById s1 id previous, none)

/-- `deleteTask` of the first task-pool hook variant: capture the full prior
LocalState, remove the entity optimistically, persist through `retry`
(`maxRetries = 2, delay = 500`); on terminal failure restore the captured
prior list wholesale and rethrow. -/
def deleteTask (s : List TaskPoolTask) (id : String)
    (fn : Nat → Except JsError Unit) : List TaskPoolTask × Option JsError :=
  let s1 := s.filter (fun task => task.id != id)
  match (retry fn 2 500 .exponential isRetryableError).result with
  | .ok _ => (s1, none)
  | .error e => (s, some e)

/-- `deleteTask` of the second task-pool hook variant (`delay = 600`): same
state transitions, but the catch block only notifies — the error is not
rethrown to the caller. -/
def deleteTaskV2 (s : List TaskPoolTask) (id : String)
    (fn : Nat → Except JsError Unit) : List TaskPoolTask × Option JsError :=
  let s1 := s.filter (fun task => task.id != id)
  match (retry fn 2 600 .exponential isRetryableError).result with
  | .ok _ => (s1, none)
  | .error _ => (s, none)

/-- The per-identifier body of `reorderTasks` (second variant): look the
identifier up in the latest snapshot; if found, take that entity with its
position recomputed as its index in the argument sequence plus one, otherwise
produce nothing (`null`, filtered out). -/
def reorderPick (s : List TaskPoolTask) (p : Nat × String) : Option TaskPoolTask :=
  match s.find? (fun task => task.id == p.2) with
  | some found => some { found with position := (p.1 : Int) + 1 }
  | none => none

/-- `reorderTasks` of the second task-pool hook variant: map each identifier
of the ordered sequence (with its index) through the lookup, drop the misses,
and replace LocalState wholesale with the result. -/
def reorderTasks (s : List TaskPoolTask) (orderedIds : List String) : List TaskPoolTask :=
  (orderedIds.enum).filterMap (reorderPick s)

/-- A sub-task of a `TimeBlock` (`src/types`). -/
structure SubTask where
  id : String
  title : String
  completed : Bool
deriving DecidableEq

/-- The `TimeBlock` domain entity (`src/types`), as produced by
`mapRowToTimeBlock`: its sort key is the `(date, startTime)` pair of strings
(`YYYY-MM-DD` and `HH:mm`). -/
structure TimeBlock where
  id : String
  title : String
  startTime : String
  endTime : String
  category : String
  date : String
  completed : Bool
  status : String
  actualStartTime : Option String
  actualEndTime : Option String
  pausedDuration : Nat
  externalEvent : Bool
  subTasks : List SubTask
deriving DecidableEq

/-- The time-block sort comparator
`(a, b) => a.date.localeCompare(b.date) || a.startTime.localeCompare(b.startTime)`
as the boolean relation "the comparator is non-positive": lexicographic order
on the `(date, startTime)` string pair. -/
def leTimeBlock (a b : TimeBlock) : Bool :=
  decide (a.date < b.date ∨ (a.date = b.date ∧ a.startTime ≤ b.startTime))

/-- INSERT branch of `handleRealtimeChange` in the time-block hook: normalize
the payload (done upstream by the deterministic `mapRowToTimeBlock`), ignore
the event if an entity with that identifier is already present, otherwise
append and re-sort by the `(date, startTime)` key. -/
def tbInsertMerge (current : List TimeBlock) (inserted : TimeBlock) : List TimeBlock :=
  if current.any (fun block => block.id == inserted.id) then current
  else List.mergeSort (current ++ [inserted]) leTimeBlock

/-- Concrete transient error: a network error (`code = 'NETWORK_ERROR'`). -/
def netErr : JsError :=
  { code := some "NETWORK_ERROR", message := none, status := none }

/-- Concrete permanent error: a validation failure (HTTP 400). -/
def permErr : JsError :=
  { code := none, message := none, status := some 400 }

/-- Concrete pool task `A` at position 1. -/
def tA : TaskPoolTask :=
  { id := "a", title := "A", category := "work", completed := false,
    position := 1, notes := none, createdAt := none, updatedAt := none }

/-- Concrete pool task `B` at position 2. -/
def tB : TaskPoolTask :=
  { id := "b", title := "B", category := "work", completed := false,
    position := 2, notes := none, createdAt := none, updatedAt := none }

/-- Concrete pool task `C` at position 3. -/
def tC : TaskPoolTask :=
  { id := "c", title := "C", category := "work", completed := false,
    position := 3, notes := none, createdAt := none, updatedAt := none }

/-- Concrete realtime insert payload row. -/
def rowR : TaskPoolRow :=
  { id := "r1", title := "R", category := "work", completed := false,
    position := 1, notes := none, created_at := some "2025-01-01",
    updated_at := some "2025-01-01" }

/-- Patch `{ title: "B" }`. -/
def patchTitleB : TaskPatch :=
  { title := some "B", category := none, completed := none,
    position := none, notes := none }

/-- Patch `{ position: 5 }`. -/
def patchPos5 : TaskPatch :=
  { title := none, category := none, completed := none,
    position := some 5, notes := none }

/-- Server row confirming an update of task `a` to position 5. -/
def rowA5 : TaskPoolRow :=
  { id := "a", title := "A", category := "work", completed := false,
    position := 5, notes := none, created_at := some "2025-01-01",
    updated_at := some "2025-01-02" }

/-- Concrete draft with title `"X"`. -/
def draftX : TaskDraft :=
  { title := "X", category := "work", completed := false,
    position := 1, notes := none }

/-- Server row returned for the insert of `draftX`, with the server-assigned
identifier `"srv-1"`. -/
def rowSrv1 : TaskPoolRow :=
  { id := "srv-1", title := "X", category := "work", completed := false,
    position := 1, notes := none, created_at := some "2025-01-01",
    updated_at := some "2025-01-01" }

theorem retryLoop_always_fail {α : Type} (fn : Nat → Except JsError α)
    (errs : Nat → JsError) (rc : JsError → Bool) (dl : Nat) (bk : Backoff)
    (mr : Nat) (hop : ∀ k, fn k = .error (errs k)) (hc : ∀ k, rc (errs k) = true) :
    ∀ (fuel attempt : Nat), attempt + fuel = mr →
      retryLoop fn rc dl bk mr fuel attempt =
        ⟨.error (errs mr), fuel + 1,
          (List.range' attempt fuel).map (fun k => delayFor bk dl k)⟩ := by
  intro fuel
  induction fuel with
  | zero =>
    intro attempt h
    subst h
    rw [retryLoop]
    simp [hop, hc]
  | succ f ih =>
    intro attempt h
    have hne : attempt ≠ mr := by omega
    rw [retryLoop]
    simp only [hop, hc, hne, if_false, ite_false, ite_true, if_true]
    rw [ih (attempt + 1) (by omega)]
    simp [List.range'_succ]

theorem retry_always_fail {α : Type} (fn : Nat → Except JsError α)
    (errs : Nat → JsError) (mr dl : Nat) (bk : Backoff) (rc : JsError → Bool)
    (hop : ∀ k, fn k = .error (errs k)) (hc : ∀ k, rc (errs k) = true) :
    retry fn mr dl bk rc =
      ⟨.error (errs mr), mr + 1, (List.range mr).map (fun k => delayFor bk dl k)⟩ := by
  rw [retry, retryLoop_always_fail fn errs rc dl bk mr hop hc mr 0 (by omega),
    List.range_eq_range']

theorem retry_first_not_retryable {α : Type} (fn : Nat → Except JsError α)
    (mr dl : Nat) (bk : Backoff) (rc : JsError → Bool) (e : JsError)
    (h0 : fn 0 = .error e) (hc : rc e = false) :
    (retry fn mr dl bk rc).result = .error e := by
  rw [retry, retryLoop]
  simp [h0, hc]

theorem retry_first_ok {α : Type} (fn : Nat → Except JsError α)
    (mr dl : Nat) (bk : Backoff) (rc : JsError → Bool) (v : α)
    (h0 : fn 0 = .ok v) :
    (retry fn mr dl bk rc).result = .ok v := by
  rw [retry, retryLoop]
  simp [h0]

theorem netErr_retryable : isRetryableError netErr = true := by decide

/-- C1: for every asynchronous operation that fails on every invocation with
an error the retryability predicate accepts, calling `retry` with
`maxRetries = 2` invokes the operation exactly 3 times in total (attempts 0,
1, 2) and then throws the error of the last attempt. -/
theorem C1_retry_bound {α : Type} (fn : Nat → Except JsError α) (errs : Nat → JsError)
    (dl : Nat) (bk : Backoff) (rc : JsError → Bool)
    (hop : ∀ k, fn k = .error (errs k)) (hc : ∀ k, rc (errs k) = true) :
    (retry fn 2 dl bk rc).calls = 3
    ∧ (retry fn 2 dl bk rc).result = .error (errs 2) := by
  rw [retry_always_fail fn errs 2 dl bk rc hop hc]
  exact ⟨rfl, rfl⟩

theorem C1_retry_bound_witness :
    (∀ k : Nat, (fun _ : Nat => (Except.error netErr : Except JsError Unit)) k
        = Except.error ((fun _ : Nat => netErr) k))
    ∧ (∀ k : Nat, isRetryableError ((fun _ : Nat => netErr) k) = true)
    ∧ ((retry (fun _ : Nat => (Except.error netErr : Except JsError Unit)) 2 500
          Backoff.exponential isRetryableError).calls = 3
       ∧ (retry (fun _ : Nat => (Except.error netErr : Except JsError Unit)) 2 500
          Backoff.exponential isRetryableError).result = Except.error netErr) :=
  ⟨fun _ => rfl, fun _ => netErr_retryable,
    C1_retry_bound (fun _ => Except.error netErr) (fun _ => netErr) 500
      Backoff.exponential isRetryableError (fun _ => rfl) (fun _ => netErr_retryable)⟩

/-- C9: for an operation that keeps failing with retryable errors, the waits
inserted by `retry` are `delayFor backoff delay k` after failed attempt `k`
(so the wait before attempt `k + 1` is at index `k`); with exponential
backoff and `delay = 500` the full wait list for `maxRetries = 3` is
`[500, 1000, 2000]` — in particular `500 * 2 ^ 1 = 1000` before attempt 2 and
`500 * 2 ^ 2 = 2000` before attempt 3 — and in general the wait after failed
attempt `k` is `delay * 2 ^ k` for exponential and `delay * (k + 1)` for
linear backoff. -/
theorem C9_backoff_growth {α : Type} (fn : Nat → Except JsError α) (errs : Nat → JsError)
    (mr dl : Nat) (bk : Backoff) (rc : JsError → Bool)
    (hop : ∀ k, fn k = .error (errs k)) (hc : ∀ k, rc (errs k) = true) :
    (retry fn mr dl bk rc).waits = (List.range mr).map (fun k => delayFor bk dl k)
    ∧ (retry fn 3 500 Backoff.exponential rc).waits = [500, 1000, 2000]
    ∧ (∀ k, delayFor Backoff.exponential dl k = dl * 2 ^ k)
    ∧ (∀ k, delayFor Backoff.linear dl k = dl * (k + 1)) := by
  refine ⟨?_, ?_, fun k => rfl, fun k => rfl⟩
  · rw [retry_always_fail fn errs mr dl bk rc hop hc]
  · rw [retry_always_fail fn errs 3 500 Backoff.exponential rc hop hc]
    rfl

theorem C9_backoff_growth_witness :
    (∀ k : Nat, (fun _ : Nat => (Except.error netErr : Except JsError Unit)) k
        = Except.error ((fun _ : Nat => netErr) k))
    ∧ (∀ k : Nat, isRetryableError ((fun _ : Nat => netErr) k) = true)
    ∧ (retry (fun _ : Nat => (Except.error netErr : Except JsError Unit)) 3 500
        Backoff.exponential isRetryableError).waits = [500, 1000, 2000] :=
  ⟨fun _ => rfl, fun _ => netErr_retryable,
    (C9_backoff_growth (fun _ => Except.error netErr) (fun _ => netErr) 3 500
      Backoff.exponential isRetryableError (fun _ => rfl) (fun _ => netErr_retryable)).2.1⟩

/-- C8: the retryability predicate is a pure function of the error value; it
returns `true` exactly when the error is a network error, a timeout, an HTTP
5xx, or an HTTP 429 (each category being the code's own test of the error
value), and it returns `false` for every error that is in none of those
categories — in particular for any error carrying a 4xx status other than 429
with no network or timeout marker. -/
theorem C8_retryable_classification :
    (∀ e : JsError,
       isRetryableError e
         = (isNetworkError e || isTimeoutError e || hasStatus5xx e || hasStatus429 e))
    ∧ (∀ (e : JsError) (s : Int), e.status = some s → 400 ≤ s → s < 500 → s ≠ 429 →
        isNetworkError e = false → isTimeoutError e = false →
        isRetryableError e = false) := by
  constructor
  · intro e
    cases hn : isNetworkError e <;> cases ht : isTimeoutError e <;>
      cases h5 : hasStatus5xx e <;> cases h4 : hasStatus429 e <;>
      simp [isRetryableError, hn, ht, h5, h4]
  · intro e s hst h1 h2 h3 hn ht
    have h5 : hasStatus5xx e = false := by
      simp only [hasStatus5xx, hst]
      simp
      omega
    have h4 : hasStatus429 e = false := by
      simp only [hasStatus429, hst]
      simp
      omega
    simp [isRetryableError, hn, ht, h5, h4]

theorem C8_retryable_classification_witness :
    ((⟨none, none, some 404⟩ : JsError).status = some 404
     ∧ (400 : Int) ≤ 404 ∧ (404 : Int) < 500 ∧ (404 : Int) ≠ 429
     ∧ isNetworkError ⟨none, none, some 404⟩ = false
     ∧ isTimeoutError ⟨none, none, some 404⟩ = false)
    ∧ isRetryableError ⟨none, none, some 404⟩ = false
    ∧ isRetryableError netErr
        = (isNetworkError netErr || isTimeoutError netErr
            || hasStatus5xx netErr || hasStatus429 netErr) :=
  ⟨⟨rfl, by decide, by decide, by decide, by decide, by decide⟩,
    C8_retryable_classification.2 ⟨none, none, some 404⟩ 404 rfl (by decide)
      (by decide) (by decide) (by decide) (by decide),
    C8_retryable_classification.1 netErr⟩

/-- C3 counterexample: the INSERT branch of the first task-pool variant
appends the payload without checking whether the identifier is already
present, so merging the same insert event twice does not equal merging it
once (a duplicate entity appears). -/
theorem C3_insert_merge_counterexample :
    taskInsertMergeV1 (taskInsertMergeV1 [] rowR) rowR ≠ taskInsertMergeV1 [] rowR := by
  intro h
  have h1 : (taskInsertMergeV1 [] rowR).length = 1 := by
    simp [taskInsertMergeV1]
  have h2 : (taskInsertMergeV1 (taskInsertMergeV1 [] rowR) rowR).length = 2 := by
    simp [taskInsertMergeV1]
  rw [h, h1] at h2
  exact absurd h2 (by decide)

/-- C3 (amended): the insert-merges that first check whether an entity with
the inserted identifier is already present and ignore the event if so — the
time-block realtime handler and the INSERT branch of the second task-pool
variant — are idempotent: applying the same insert event twice to any
LocalState yields the same state as applying it once. The first task-pool
variant performs no such check and is not idempotent. -/
theorem C3_insert_merge_idempotent :
    (∀ (s : List TimeBlock) (b : TimeBlock),
       tbInsertMerge (tbInsertMerge s b) b = tbInsertMerge s b)
    ∧ (∀ (s : List TaskPoolTask) (row : TaskPoolRow),
       taskInsertMergeV2 (taskInsertMergeV2 s row) row = taskInsertMergeV2 s row) := by
  constructor
  · intro s b
    by_cases h : (s.any (fun block => block.id == b.id)) = true
    · have h1 : tbInsertMerge s b = s := by simp [tbInsertMerge, h]
      rw [h1]
      exact h1
    · have h1 : tbInsertMerge s b = List.mergeSort (s ++ [b]) leTimeBlock := by
        simp [tbInsertMerge, h]
      have hb : b ∈ List.mergeSort (s ++ [b]) leTimeBlock :=
        List.mem_mergeSort.mpr (by simp)
      have hany : ((List.mergeSort (s ++ [b]) leTimeBlock).any
          (fun block => block.id == b.id)) = true :=
        List.any_eq_true.mpr ⟨b, hb, by simp⟩
      rw [h1]
      simp [tbInsertMerge, hany]
  · intro s row
    by_cases h : (s.any (fun task => task.id == (mapRowToTask row).id)) = true
    · have h1 : taskInsertMergeV2 s row = s := by simp [taskInsertMergeV2, h]
      rw [h1]
      exact h1
    · have h1 : taskInsertMergeV2 s row
          = List.mergeSort (s ++ [mapRowToTask row]) leTaskV2 := by
        simp [taskInsertMergeV2, h]
      have hb : mapRowToTask row ∈ List.mergeSort (s ++ [mapRowToTask row]) leTaskV2 :=
        List.mem_mergeSort.mpr (by simp)
      have hany : ((List.mergeSort (s ++ [mapRowToTask row]) leTaskV2).any
          (fun task => task.id == (mapRowToTask row).id)) = true :=
        List.any_eq_true.mpr ⟨mapRowToTask row, hb, by simp⟩
      rw [h1]
      simp [taskInsertMergeV2, hany]

theorem replaceById_of_forall_ne {l : List TaskPoolTask} {id : String}
    (y : TaskPoolTask) (h : ∀ u ∈ l, u.id ≠ id) : replaceById l id y = l := by
  unfold replaceById
  have hcongr : l.map (fun task => if task.id == id then y else task)
      = l.map (fun task => task) :=
    List.map_congr_left (fun a ha => by simp [h a ha])
  simpa using hcongr

theorem eq_of_mem_nodupKeys {l : List TaskPoolTask} {id : String} {prev : TaskPoolTask}
    (hn : NodupKeys l) (hf : l.find? (fun t => t.id == id) = some prev) :
    ∀ t ∈ l, t.id = id → t = prev := by
  induction l with
  | nil => intro t ht; simp at ht
  | cons hd tl ih =>
    have hn' : hd.id ∉ tl.map (fun t => t.id) ∧ NodupKeys tl := by
      simpa [NodupKeys, List.nodup_cons] using hn
    intro t ht htid
    by_cases hh : (hd.id == id) = true
    · simp only [List.find?, hh] at hf
      have hprev : prev = hd := by
        cases hf
        rfl
      subst hprev
      rcases List.mem_cons.mp ht with rfl | ht
      · rfl
      · exfalso
        apply hn'.1
        have hhid : prev.id = id := by simpa using hh
        have hth : t.id = prev.id := htid.trans hhid.symm
        exact hth ▸ List.mem_map.mpr ⟨t, ht, rfl⟩
    · have hh' : (hd.id == id) = false := by simpa using hh
      simp only [List.find?, hh'] at hf
      rcases List.mem_cons.mp ht with rfl | ht
      · exact absurd (by simpa using htid) hh
      · exact ih hn'.2 hf t ht htid

theorem find?_id_eq {l : List TaskPoolTask} {id : String} {prev : TaskPoolTask}
    (hf : l.find? (fun t => t.id == id) = some prev) : prev.id = id := by
  have := List.find?_some hf
  simpa using this

theorem replaceById_replaceById {l : List TaskPoolTask} {id : String}
    {x : TaskPoolTask} (y : TaskPoolTask) (hx : x.id = id) :
    replaceById (replaceById l id x) id y = replaceById l id y := by
  unfold replaceById
  rw [List.map_map]
  apply List.map_congr_left
  intro a _
  by_cases h : (a.id == id) = true <;> simp [Function.comp, h, hx]

theorem replaceById_self {l : List TaskPoolTask} {id : String} {prev : TaskPoolTask}
    (hn : NodupKeys l) (hf : l.find? (fun t => t.id == id) = some prev) :
    replaceById l id prev = l := by
  unfold replaceById
  have hcongr : l.map (fun task => if task.id == id then prev else task)
      = l.map (fun task => task) := by
    apply List.map_congr_left
    intro a ha
    by_cases h : (a.id == id) = true
    · simpa [h] using (eq_of_mem_nodupKeys hn hf a ha (by simpa using h)).symm
    · simp [h]
  simpa using hcongr

theorem replaceById_append_singleton {l : List TaskPoolTask} {id : String}
    {x : TaskPoolTask} (y : TaskPoolTask) (hx : x.id = id)
    (h : ∀ u ∈ l, u.id ≠ id) :
    replaceById (l ++ [x]) id y = l ++ [y] := by
  unfold replaceById
  rw [List.map_append]
  have h1 : l.map (fun task => if task.id == id then y else task) = l := by
    have := replaceById_of_forall_ne y h
    simpa [replaceById] using this
  rw [h1]
  simp [hx]

theorem leTask_trans : ∀ a b c : TaskPoolTask,
    leTask a b → leTask b c → leTask a c := by
  intro a b c hab hbc
  simp only [leTask, decide_eq_true_eq] at *
  omega

theorem leTask_total : ∀ a b : TaskPoolTask, leTask a b || leTask b a := by
  intro a b
  simp only [leTask]
  by_cases h : a.position ≤ b.position
  · simp [h]
  · simp [h]
    omega

theorem sortedByPosition_mergeSort (l : List TaskPoolTask) :
    SortedByPosition (List.mergeSort l leTask) := by
  have h := List.sorted_mergeSort leTask_trans leTask_total l
  exact h.imp (fun hab => by simpa [leTask] using hab)

theorem sortedByPosition_filter (l : List TaskPoolTask) (p : TaskPoolTask → Bool)
    (h : SortedByPosition l) : SortedByPosition (l.filter p) :=
  List.Pairwise.filter p h

theorem updateOptimistic_positions (s : List TaskPoolTask) (id : String)
    (p : TaskPatch) (hpos : p.position = none) (hn : NodupKeys s) :
    (updateOptimistic s id p).map (fun t => t.position)
      = s.map (fun t => t.position) := by
  unfold updateOptimistic
  cases hf : s.find? (fun task => task.id == id) with
  | none => rfl
  | some prev =>
    unfold replaceById
    rw [List.map_map]
    apply List.map_congr_left
    intro a ha
    by_cases h : (a.id == id) = true
    · have ha_eq : a = prev := eq_of_mem_nodupKeys hn hf a ha (by simpa using h)
      subst ha_eq
      simp [Function.comp, h, applyPatch, hpos]
    · simp [Function.comp, h]

theorem reorderAux_spec (s : List TaskPoolTask) :
    ∀ (ids : List String) (n : Nat),
      ((List.filterMap (reorderPick s) (List.enumFrom n ids)).map (fun t => t.id)
         = ids.filter (fun i => (s.find? (fun t => t.id == i)).isSome))
      ∧ (∀ t ∈ List.filterMap (reorderPick s) (List.enumFrom n ids),
           (n : Int) + 1 ≤ t.position)
      ∧ (List.filterMap (reorderPick s) (List.enumFrom n ids)).Pairwise
          (fun a b => a.position ≤ b.position)
      ∧ (∀ t ∈ List.filterMap (reorderPick s) (List.enumFrom n ids),
           ∃ (k : Nat) (u : TaskPoolTask), ids.get? k = some t.id
             ∧ s.find? (fun v => v.id == t.id) = some u
             ∧ t = { u with position := ((n + k : Nat) : Int) + 1 }) := by
  intro ids
  induction ids with
  | nil =>
    intro n
    refine ⟨by simp [List.enumFrom], by simp [List.enumFrom], by simp [List.enumFrom],
      by simp [List.enumFrom]⟩
  | cons i is ih =>
    intro n
    obtain ⟨ihmap, ihbound, ihpair, ihshape⟩ := ih (n + 1)
    cases hfind : s.find? (fun task => task.id == i) with
    | none =>
      have hpick : reorderPick s (n, i) = none := by simp [reorderPick, hfind]
      refine ⟨?_, ?_, ?_, ?_⟩
      · simp only [List.enumFrom, List.filterMap_cons, hpick, List.filter_cons,
          hfind, Option.isSome_none]
        simpa using ihmap
      · intro t htm
        simp only [List.enumFrom, List.filterMap_cons, hpick] at htm
        have := ihbound t htm
        omega
      · simp only [List.enumFrom, List.filterMap_cons, hpick]
        exact ihpair
      · intro t htm
        simp only [List.enumFrom, List.filterMap_cons, hpick] at htm
        obtain ⟨k, u, hget, hfind', hshape⟩ := ihshape t htm
        refine ⟨k + 1, u, by simpa using hget, hfind', ?_⟩
        have harith : (n + (k + 1) : Nat) = ((n + 1) + k : Nat) := by omega
        rw [harith]
        exact hshape
    | some u =>
      have hu_id : u.id = i := find?_id_eq hfind
      have hpick : reorderPick s (n, i) = some { u with position := (n : Int) + 1 } := by
        simp [reorderPick, hfind]
      refine ⟨?_, ?_, ?_, ?_⟩
      · simp only [List.enumFrom, List.filterMap_cons, hpick, List.filter_cons,
          hfind, Option.isSome_some, List.map_cons]
        simpa [hu_id] using ihmap
      · intro t htm
        simp only [List.enumFrom, List.filterMap_cons, hpick, List.mem_cons] at htm
        rcases htm with rfl | htm
        · simp
        · have := ihbound t htm
          omega
      · simp only [List.enumFrom, List.filterMap_cons, hpick]
        refine List.pairwise_cons.mpr ⟨?_, ihpair⟩
        intro b hb
        have := ihbound b hb
        simp only []
        omega
      · intro t htm
        simp only [List.enumFrom, List.filterMap_cons, hpick, List.mem_cons] at htm
        rcases htm with rfl | htm
        · refine ⟨0, u, ?_, ?_, ?_⟩
          · simp [hu_id]
          · have hid : ({ u with position := (n : Int) + 1 } : TaskPoolTask).id = i := hu_id
            rw [hid]
            exact hfind
          · simp
        · obtain ⟨k, u', hget, hfind', hshape⟩ := ihshape t htm
          refine ⟨k + 1, u', by simpa using hget, hfind', ?_⟩
          have harith : (n + (k + 1) : Nat) = ((n + 1) + k : Nat) := by omega
          rw [harith]
          exact hshape

/-- C10: `reorderTasks` (the identifier-sequence variant) replaces LocalState
with exactly the entities named by the ordered identifier sequence: the
resulting identifiers are the argument sequence restricted to identifiers
present in LocalState (so unknown identifiers are silently skipped), every
resulting entity is the looked-up entity with its position recomputed from
its index in the argument sequence (index + 1), and every entity absent from
the argument sequence is removed. -/
theorem C10_reorder_replaces_exactly :
    ∀ (s : List TaskPoolTask) (orderedIds : List String),
      ((reorderTasks s orderedIds).map (fun t => t.id)
         = orderedIds.filter (fun i => (s.find? (fun t => t.id == i)).isSome))
      ∧ (∀ t ∈ reorderTasks s orderedIds,
           ∃ (k : Nat) (u : TaskPoolTask), orderedIds.get? k = some t.id
             ∧ s.find? (fun v => v.id == t.id) = some u
             ∧ t = { u with position := (k : Int) + 1 })
      ∧ (∀ u ∈ s, u.id ∉ orderedIds →
           ∀ t ∈ reorderTasks s orderedIds, t.id ≠ u.id) := by
  intro s ids
  obtain ⟨hmap, _hbound, _hpair, hshape⟩ := reorderAux_spec s ids 0
  have hre : reorderTasks s ids
      = List.filterMap (reorderPick s) (List.enumFrom 0 ids) := rfl
  refine ⟨?_, ?_, ?_⟩
  · rw [hre]
    exact hmap
  · intro t htm
    rw [hre] at htm
    obtain ⟨k, u, hget, hfind, hshape'⟩ := hshape t htm
    exact ⟨k, u, hget, hfind, by simpa using hshape'⟩
  · intro u _hu hnotin t htm heq
    rw [hre] at htm
    have hmem : t.id ∈ List.map (fun t => t.id)
        (List.filterMap (reorderPick s) (List.enumFrom 0 ids)) :=
      List.mem_map.mpr ⟨t, htm, rfl⟩
    rw [hmap] at hmem
    exact hnotin (heq ▸ List.mem_of_mem_filter hmem)

theorem C10_reorder_replaces_exactly_witness :
    tC ∈ [tA, tB, tC] ∧ tC.id ∉ ["b", "a"]
    ∧ (∀ t ∈ reorderTasks [tA, tB, tC] ["b", "a"], t.id ≠ tC.id) :=
  ⟨by decide, by decide,
    (C10_reorder_replaces_exactly [tA, tB, tC] ["b", "a"]).2.2 tC (by decide) (by decide)⟩

/-- C5 counterexample: starting from the sorted LocalState `[tA, tB]`
(positions 1, 2), `updateTask` with the patch `{ position: 5 }` (confirmed by
the server row echoing position 5) completes with LocalState `[a at 5, b at
2]`, which is not sorted by position — neither the optimistic apply nor the
reconciliation of `updateTask` re-sorts. -/
theorem C5_sorted_counterexample :
    ¬ SortedByPosition (updateTask [tA, tB] "a" patchPos5 (fun _ => Except.ok rowA5)).1 := by
  decide

/-- C5 (amended): LocalState sortedness is re-established by every realtime
merge branch (INSERT and UPDATE re-sort, DELETE filters, preserving order),
is preserved by `deleteTask` (both on success and on rollback), holds for the
output of `reorderTasks`, and is preserved by the optimistic steps of
`addTask`/`updateTask` only under the conditions the code actually relies on:
the appended entity's position is at least every existing position (for
create), resp. the patch leaves the position unchanged (for update). It does
not hold after an arbitrary `updateTask` or after reconciliation with a
server row whose position moved, since those code paths do not re-sort. -/
theorem C5_sorted_invariant_amended :
    (∀ (s : List TaskPoolTask) (row : TaskPoolRow),
       SortedByPosition (taskInsertMergeV1 s row))
    ∧ (∀ (s : List TaskPoolTask) (row : TaskPoolRow),
       SortedByPosition (taskUpdateMergeV1 s row))
    ∧ (∀ (s : List TaskPoolTask) (oldId : String),
       SortedByPosition s → SortedByPosition (taskDeleteMerge s oldId))
    ∧ (∀ (s : List TaskPoolTask) (id : String) (fn : Nat → Except JsError Unit),
       SortedByPosition s → SortedByPosition (deleteTask s id fn).1)
    ∧ (∀ (s : List TaskPoolTask) (ids : List String),
       SortedByPosition (reorderTasks s ids))
    ∧ (∀ (s : List TaskPoolTask) (t : TaskPoolTask), SortedByPosition s →
       (∀ u ∈ s, u.position ≤ t.position) → SortedByPosition (s ++ [t]))
    ∧ (∀ (s : List TaskPoolTask) (id : String) (p : TaskPatch),
       p.position = none → NodupKeys s → SortedByPosition s →
       SortedByPosition (updateOptimistic s id p)) := by
  refine ⟨?_, ?_, ?_, ?_, ?_, ?_, ?_⟩
  · intro s row
    exact sortedByPosition_mergeSort _
  · intro s row
    exact sortedByPosition_mergeSort _
  · intro s oldId h
    exact sortedByPosition_filter _ _ h
  · intro s id fn h
    cases hr : (retry fn 2 500 Backoff.exponential isRetryableError).result with
    | error e =>
      simpa [deleteTask, hr] using h
    | ok v =>
      simpa [deleteTask, hr] using sortedByPosition_filter s (fun task => task.id != id) h
  · intro s ids
    exact (reorderAux_spec s ids 0).2.2.1
  · intro s t hs hmax
    refine List.pairwise_append.mpr ⟨hs, List.pairwise_singleton _ _, ?_⟩
    intro a ha b hb
    have hb' : b = t := by simpa using hb
    subst hb'
    exact hmax a ha
  · intro s id p hpos hn hs
    have h1 : ((updateOptimistic s id p).map (fun t => t.position)).Pairwise
        (fun a b : Int => a ≤ b) := by
      rw [updateOptimistic_positions s id p hpos hn]
      exact List.pairwise_map.mpr hs
    exact List.pairwise_map.mp h1

theorem C5_sorted_invariant_amended_witness :
    (patchTitleB.position = none ∧ NodupKeys [tA, tB] ∧ SortedByPosition [tA, tB])
    ∧ SortedByPosition (updateOptimistic [tA, tB] "a" patchTitleB) :=
  ⟨⟨rfl, by decide, by decide⟩,
    C5_sorted_invariant_amended.2.2.2.2.2.2 [tA, tB] "a" patchTitleB rfl
      (by decide) (by decide)⟩

/-- C2 counterexample: in the second hook variant the catch block of
`updateTask` does not rethrow. With LocalState `[tA]` (entity `a` with title
"A"), patch `{ title: "B" }` and a persistence call failing permanently with
a validation error, the state is rolled back but the propagated error
component is `none`: nothing is surfaced to the caller. -/
theorem C2_update_rethrow_counterexample :
    (updateTaskV2 [tA] "a" patchTitleB (fun _ => Except.error permErr)).2 = none
    ∧ (updateTaskV2 [tA] "a" patchTitleB (fun _ => Except.error permErr)).2 ≠ some permErr
    ∧ tA.title = "A" ∧ patchTitleB.title = some "B"
    ∧ isRetryableError permErr = false := by
  exact ⟨by decide, by decide, rfl, rfl, by decide⟩

/-- C2 (amended): for every LocalState with unique identifiers containing the
target entity, `updateTask` with a persistence call that fails permanently
(non-retryable on its first invocation) restores exactly the captured
pre-patch entity — the final LocalState equals the original list, the rest of
the entities untouched — in both hook variants; the error is rethrown to the
caller in the first variant, while the second variant reports it via a user
notification only and propagates no error. -/
theorem C2_update_rollback_amended :
    ∀ (s : List TaskPoolTask) (id : String) (p : TaskPatch) (prev : TaskPoolTask)
      (fn : Nat → Except JsError TaskPoolRow) (e : JsError),
      NodupKeys s →
      s.find? (fun task => task.id == id) = some prev →
      fn 0 = .error e →
      isRetryableError e = false →
      updateTask s id p fn = (s, some e) ∧ updateTaskV2 s id p fn = (s, none) := by
  intro s id p prev fn e hn hf h0 hc
  have hres400 : (retry fn 2 400 Backoff.exponential isRetryableError).result = .error e :=
    retry_first_not_retryable fn 2 400 Backoff.exponential isRetryableError e h0 hc
  have hres600 : (retry fn 2 600 Backoff.exponential isRetryableError).result = .error e :=
    retry_first_not_retryable fn 2 600 Backoff.exponential isRetryableError e h0 hc
  have hprev_id : prev.id = id := find?_id_eq hf
  have hstate : replaceById (replaceById s id (applyPatch prev p)) id prev = s := by
    rw [replaceById_replaceById prev (show (applyPatch prev p).id = id from hprev_id)]
    exact replaceById_self hn hf
  constructor
  · simp only [updateTask, hf, hres400, hstate]
  · simp only [updateTaskV2, hf, hres600, hstate]

theorem C2_update_rollback_amended_witness :
    (NodupKeys [tA]
     ∧ [tA].find? (fun task => task.id == "a") = some tA
     ∧ isRetryableError permErr = false)
    ∧ updateTask [tA] "a" patchTitleB (fun _ => Except.error permErr) = ([tA], some permErr) :=
  ⟨⟨by decide, by decide, by decide⟩,
    (C2_update_rollback_amended [tA] "a" patchTitleB tA (fun _ => Except.error permErr)
      permErr (by decide) (by decide) rfl (by decide)).1⟩

/-- C7 counterexample: in the second hook variant the catch block of
`deleteTask` does not rethrow. With LocalState `[tA, tB, tC]` and a
persistence delete of `b` failing permanently, the captured prior list is
restored wholesale but the propagated error component is `none`: nothing is
surfaced to the caller. -/
theorem C7_delete_rethrow_counterexample :
    (deleteTaskV2 [tA, tB, tC] "b" (fun _ => Except.error permErr)).1 = [tA, tB, tC]
    ∧ (deleteTaskV2 [tA, tB, tC] "b" (fun _ => Except.error permErr)).2 = none
    ∧ (deleteTaskV2 [tA, tB, tC] "b" (fun _ => Except.error permErr)).2 ≠ some permErr := by
  exact ⟨by decide, by decide, by decide⟩

/-- C7 (amended): for every LocalState (in particular `[A, B, C]`),
`deleteTask` with a persistence call that fails permanently restores the
captured prior LocalState wholesale — exactly the original list in the same
order — in both hook variants; the error is rethrown to the caller in the
first variant, while the second variant reports it via a user notification
only and propagates no error. -/
theorem C7_delete_rollback_amended :
    ∀ (s : List TaskPoolTask) (id : String) (fn : Nat → Except JsError Unit) (e : JsError),
      fn 0 = .error e →
      isRetryableError e = false →
      deleteTask s id fn = (s, some e) ∧ deleteTaskV2 s id fn = (s, none) := by
  intro s id fn e h0 hc
  have h500 : (retry fn 2 500 Backoff.exponential isRetryableError).result = .error e :=
    retry_first_not_retryable fn 2 500 Backoff.exponential isRetryableError e h0 hc
  have h600 : (retry fn 2 600 Backoff.exponential isRetryableError).result = .error e :=
    retry_first_not_retryable fn 2 600 Backoff.exponential isRetryableError e h0 hc
  constructor
  · simp [deleteTask, h500]
  · simp [deleteTaskV2, h600]

theorem C7_delete_rollback_amended_witness :
    isRetryableError permErr = false
    ∧ deleteTask [tA, tB, tC] "b" (fun _ => Except.error permErr) = ([tA, tB, tC], some permErr) :=
  ⟨by decide,
    (C7_delete_rollback_amended [tA, tB, tC] "b" (fun _ => Except.error permErr)
      permErr rfl (by decide)).1⟩

/-- C4 counterexample: deleting an identifier absent from LocalState still
issues the persistence call, and in the first hook variant a terminal
persistence failure (here: a network error that exhausts the retries) is
rethrown even though the target was absent, so "throws no error" fails for
delete. -/
theorem C4_missing_target_counterexample :
    (∀ t ∈ [tA], t.id ≠ "zz")
    ∧ (deleteTask [tA] "zz" (fun _ => Except.error netErr)).2 = some netErr
    ∧ (deleteTask [tA] "zz" (fun _ => Except.error netErr)).2 ≠ none := by
  exact ⟨by decide, by decide, by decide⟩

/-- C4 (amended): with an identifier absent from LocalState, `updateTask`
returns early — no state change and no error, regardless of the persistence
behaviour, in both variants — and `deleteTask` never changes LocalState (the
optimistic filter removes nothing and the rollback restores the identical
captured list); `deleteTask` propagates no error when the persistence call
succeeds (and never in the second variant), but the first variant still
rethrows a terminal persistence failure even though the target was absent. -/
theorem C4_missing_target_amended :
    ∀ (s : List TaskPoolTask) (id : String) (p : TaskPatch)
      (fnU : Nat → Except JsError TaskPoolRow) (fnD : Nat → Except JsError Unit),
      (∀ t ∈ s, t.id ≠ id) →
      updateTask s id p fnU = (s, none)
      ∧ updateTaskV2 s id p fnU = (s, none)
      ∧ (deleteTask s id fnD).1 = s
      ∧ (deleteTaskV2 s id fnD).1 = s
      ∧ (deleteTaskV2 s id fnD).2 = none
      ∧ (∀ v, fnD 0 = .ok v → deleteTask s id fnD = (s, none)) := by
  intro s id p fnU fnD habs
  have hfind : s.find? (fun task => task.id == id) = none :=
    List.find?_eq_none.mpr (fun t ht => by simpa using habs t ht)
  have hfilter : s.filter (fun task => task.id != id) = s :=
    List.filter_eq_self.mpr (fun t ht => by simpa using habs t ht)
  refine ⟨?_, ?_, ?_, ?_, ?_, ?_⟩
  · simp [updateTask, hfind]
  · simp [updateTaskV2, hfind]
  · cases hr : (retry fnD 2 500 Backoff.exponential isRetryableError).result with
    | error e => simp [deleteTask, hr]
    | ok v => simp [deleteTask, hr, hfilter]
  · cases hr : (retry fnD 2 600 Backoff.exponential isRetryableError).result with
    | error e => simp [deleteTaskV2, hr]
    | ok v => simp [deleteTaskV2, hr, hfilter]
  · cases hr : (retry fnD 2 600 Backoff.exponential isRetryableError).result with
    | error e => simp [deleteTaskV2, hr]
    | ok v => simp [deleteTaskV2, hr]
  · intro v h0
    have hres : (retry fnD 2 500 Backoff.exponential isRetryableError).result = .ok v :=
      retry_first_ok fnD 2 500 Backoff.exponential isRetryableError v h0
    simp [deleteTask, hres, hfilter]

theorem C4_missing_target_amended_witness :
    (∀ t ∈ [tA], t.id ≠ "zz")
    ∧ updateTask [tA] "zz" patchTitleB (fun _ => Except.ok rowA5) = ([tA], none)
    ∧ deleteTask [tA] "zz" (fun _ => Except.ok ()) = ([tA], none) :=
  ⟨by decide,
    (C4_missing_target_amended [tA] "zz" patchTitleB (fun _ => Except.ok rowA5)
      (fun _ => Except.ok ()) (by decide)).1,
    (C4_missing_target_amended [tA] "zz" patchTitleB (fun _ => Except.ok rowA5)
      (fun _ => Except.ok ()) (by decide)).2.2.2.2.2 () rfl⟩

/-- C6: starting from a LocalState with no temporary-identifier entity and no
entity with identifier `"srv-1"`, `addTask` with a draft titled "X"
immediately (the optimistic append, before persistence resolves) yields a
LocalState with exactly one temporary-identifier entity, and that entity has
title "X"; once the persistence insert succeeds returning the server row with
identifier `"srv-1"`, the final LocalState is the original list plus that
server entity — exactly one entity with identifier `"srv-1"` and no entity
with a temporary identifier. -/
theorem C6_temp_id_replacement :
    ∀ (s : List TaskPoolTask) (draft : TaskDraft) (tempId : String)
      (row : TaskPoolRow) (fn : Nat → Except JsError TaskPoolRow),
      isTempId tempId = true →
      (∀ t ∈ s, isTempId t.id = false) →
      draft.title = "X" →
      row.id = "srv-1" →
      (∀ t ∈ s, t.id ≠ "srv-1") →
      fn 0 = .ok row →
      ((addTaskOptimistic s draft tempId).countP (fun t => isTempId t.id) = 1
       ∧ (∀ t ∈ addTaskOptimistic s draft tempId, isTempId t.id = true → t.title = "X")
       ∧ (addTask s draft tempId fn).1 = s ++ [mapRowToTask row]
       ∧ (addTask s draft tempId fn).1.countP (fun t => t.id == "srv-1") = 1
       ∧ (∀ t ∈ (addTask s draft tempId fn).1, isTempId t.id = false)) := by
  intro s draft tempId row fn htemp hnotemp htitle hrowid hnosrv h0
  have hres : (retry fn 2 500 Backoff.exponential isRetryableError).result = .ok row :=
    retry_first_ok fn 2 500 Backoff.exponential isRetryableError row h0
  have hdraft_id : (draftToTask draft tempId).id = tempId := rfl
  have hs_ne_temp : ∀ u ∈ s, u.id ≠ tempId := by
    intro u hu heq
    have hfalse := hnotemp u hu
    rw [heq, htemp] at hfalse
    exact absurd hfalse (by decide)
  have hcount0 : s.countP (fun t => isTempId t.id) = 0 :=
    List.countP_eq_zero.mpr (fun t ht => by simp [hnotemp t ht])
  have hfinal : (addTask s draft tempId fn).1 = s ++ [mapRowToTask row] := by
    simp only [addTask, hres]
    exact replaceById_append_singleton (mapRowToTask row) hdraft_id hs_ne_temp
  refine ⟨?_, ?_, hfinal, ?_, ?_⟩
  · simp [addTaskOptimistic, List.countP_append, hcount0, List.countP_cons, htemp,
      draftToTask]
  · intro t htm htempt
    rcases List.mem_append.mp htm with hts | htd
    · exact absurd htempt (by simp [hnotemp t hts])
    · have : t = draftToTask draft tempId := by simpa using htd
      rw [this]
      exact htitle
  · rw [hfinal]
    have hcountsrv : s.countP (fun t => t.id == "srv-1") = 0 :=
      List.countP_eq_zero.mpr (fun t ht => by simp [hnosrv t ht])
    simp [List.countP_append, hcountsrv, List.countP_cons, mapRowToTask, hrowid]
  · rw [hfinal]
    intro t htm
    rcases List.mem_append.mp htm with hts | htd
    · exact hnotemp t hts
    · have : t = mapRowToTask row := by simpa using htd
      rw [this]
      show isTempId row.id = false
      rw [hrowid]
      decide

theorem C6_temp_id_replacement_witness :
    (isTempId "temp-1" = true ∧ draftX.title = "X" ∧ rowSrv1.id = "srv-1")
    ∧ ((addTaskOptimistic [] draftX "temp-1").countP (fun t => isTempId t.id) = 1
       ∧ (addTask [] draftX "temp-1" (fun _ => Except.ok rowSrv1)).1.countP
           (fun t => t.id == "srv-1") = 1) :=
  ⟨⟨by decide, rfl, rfl⟩,
    (C6_temp_id_replacement [] draftX "temp-1" rowSrv1 (fun _ => Except.ok rowSrv1)
      (by decide) (by simp) rfl rfl (by simp) rfl).1,
    (C6_temp_id_replacement [] draftX "temp-1" rowSrv1 (fun _ => Except.ok rowSrv1)
      (by decide) (by simp) rfl rfl (by simp) rfl).2.2.2.1⟩

end FocusFlow
